import Mathlib

/-!
Verification of the todo-app persistence layer.

The Python sources are embedded shallowly: the session-backed data is a list
of `TodoList` records (Python dicts with keys `id`, `title`, `todos`), the
database-backed data is a `DBState` of table rows, and every function is a
pure Lean function mirroring the corresponding Python function line by line.
-/

namespace TodoApp

/-- Embedding of a todo dict `{"id": ..., "title": ..., "completed": ...}`
as used by the session backend and the shared utilities. -/
structure Todo where
  id : String
  title : String
  completed : Bool
deriving Repr, DecidableEq

/-- Embedding of a list dict `{"id": ..., "title": ..., "todos": [...]}`. -/
structure TodoList where
  id : String
  title : String
  todos : List Todo
deriving Repr, DecidableEq

namespace utils

/-- Embedding of `error_for_list_title(title, lists)` from
`todos/utils.py`: the uniqueness check (case-sensitive equality against the
titles of the existing lists) runs first; only when it passes is the length
bound `1 <= len(title) <= 100` checked. -/
def error_for_list_title (title : String) (lists : List TodoList) : Option String :=
  if lists.any (fun lst => lst.title == title) then
    some "Title must be unique."
  else if ¬ (1 ≤ title.length ∧ title.length ≤ 100) then
    some "Title must be between 1 and 100 characters."
  else
    none

/-- Embedding of `error_for_todo(title)` from `todos/utils.py`. -/
def error_for_todo (title : String) : Option String :=
  if ¬ (1 ≤ title.length ∧ title.length ≤ 100) then
    some "Title must be between 1 and 100 characters."
  else
    none

/-- Embedding of `find_todo_list_by_id(todo_lst_id, todo_lists)`:
`next((lst for lst in todo_lists if lst['id'] == todo_lst_id), None)`. -/
def find_todo_list_by_id (todo_lst_id : String) (todo_lists : List TodoList) :
    Option TodoList :=
  todo_lists.find? (fun lst => lst.id == todo_lst_id)

/-- Embedding of `find_todo_by_id(todo_id, todo_list)`. -/
def find_todo_by_id (todo_id : String) (todo_list : TodoList) : Option Todo :=
  todo_list.todos.find? (fun todo => todo.id == todo_id)

/-- Embedding of `delete_todo_by_id(todo_id, todo_lst)`: rebinds
`todo_lst["todos"]` to the todos whose id differs from `todo_id`. -/
def delete_todo_by_id (todo_id : String) (todo_lst : TodoList) : TodoList :=
  { todo_lst with todos := todo_lst.todos.filter (fun todo => todo.id != todo_id) }

/-- Embedding of `mark_all_todos_completed(todo_lst)` from `todos/utils.py`.
The loop body is `todo["completed"] = not todo["completed"]`: it negates
every completion flag (it does not set the flag to true). -/
def mark_all_todos_completed (todo_lst : TodoList) : TodoList :=
  { todo_lst with
    todos := todo_lst.todos.map (fun todo => { todo with completed := !todo.completed }) }

/-- Embedding of `delete_todo_list_by_id(todo_list_id, todo_lists)`. -/
def delete_todo_list_by_id (todo_list_id : String) (todo_lists : List TodoList) :
    List TodoList :=
  todo_lists.filter (fun lst => lst.id != todo_list_id)

/-- Embedding of `todos_remaining(todo_lst)`: the count of todos whose
completed flag is not set. -/
def todos_remaining (todo_lst : TodoList) : Nat :=
  (todo_lst.todos.filter (fun todo => !todo.completed)).length

/-- Embedding of `is_list_completed(todo_lst)`:
`len(todo_lst["todos"]) > 0 and todos_remaining(todo_lst) == 0`. -/
def is_list_completed (todo_lst : TodoList) : Bool :=
  decide (todo_lst.todos.length > 0) && decide (todos_remaining todo_lst = 0)

/-- Embedding of `is_todo_completed(todo)`. -/
def is_todo_completed (todo : Todo) : Bool :=
  todo.completed

end utils

namespace SessionPersistence

/-- Embedding of `SessionPersistence.all_lists`: returns `session['lists']`.
The session state is the list of `TodoList` values stored under `'lists'`. -/
def all_lists (lists : List TodoList) : List TodoList :=
  lists

/-- Embedding of `SessionPersistence.delete_list(list_id)`: rebinds
`session["lists"]` to the lists whose id differs from `list_id`. -/
def delete_list (list_id : String) (lists : List TodoList) : List TodoList :=
  lists.filter (fun lst => lst.id != list_id)

/-- Embedding of `SessionPersistence.find_list(todo_lst_id)`. -/
def find_list (todo_lst_id : String) (lists : List TodoList) : Option TodoList :=
  lists.find? (fun lst => lst.id == todo_lst_id)

/-- Embedding of `SessionPersistence.delete_todo(todo_list, todo_id)` acting
on the passed list object: rebinds `todo_list["todos"]` to the todos whose id
differs from `todo_id`. -/
def delete_todo (todo_id : String) (todo_list : TodoList) : TodoList :=
  { todo_list with
    todos := todo_list.todos.filter (fun todo => todo.id != todo_id) }

/-- Session-level effect of `SessionPersistence.delete_todo`. In Python the
method mutates the list object it receives, which the caller obtained via
`find_list`, i.e. the first stored list with the matching id; every other
stored list object is untouched. In value semantics this is: apply `f` to
the first list whose id matches `target`, keep everything else as is. -/
def update_first_list (target : String) (f : TodoList → TodoList) :
    List TodoList → List TodoList
  | [] => []
  | lst :: rest =>
    if lst.id == target then f lst :: rest
    else lst :: update_first_list target f rest

/-- Embedding of `SessionPersistence.update_todo_status(todo, is_completed)`. -/
def update_todo_status (todo : Todo) (is_completed : Bool) : Todo :=
  { todo with completed := is_completed }

/-- Embedding of `SessionPersistence.mark_all_todos_completed(todo_list)`
from `todos/session_persistence.py`: the loop body is
`todo["completed"] = True`, so every completion flag is set to true. -/
def mark_all_todos_completed (todo_list : TodoList) : TodoList :=
  { todo_list with
    todos := todo_list.todos.map (fun todo => { todo with completed := true }) }

end SessionPersistence

/-- Row of the `lists` table of the durable backend. -/
structure ListRow where
  id : Nat
  title : String
deriving Repr, DecidableEq

/-- Row of the `todos` table of the durable backend. -/
structure TodoRow where
  id : Nat
  title : String
  completed : Bool
  list_id : Nat
deriving Repr, DecidableEq

/-- State of the durable store: the contents of the two tables, in storage
order. -/
structure DBState where
  lists : List ListRow
  todos : List TodoRow
deriving Repr, DecidableEq

/-- Shape of a list returned by the durable provider: the `lists` row with
its `todos` rows attached under the `'todos'` key. -/
structure DBTodoList where
  id : Nat
  title : String
  todos : List TodoRow
deriving Repr, DecidableEq

/-- Parameterized SQL statements the durable provider can issue, one
constructor per statement text occurring in `todos/database_persistence.py`
(plus `createTable`, which occurs nowhere in it). -/
inductive SqlStmt where
  | createTable (table : String)
  | selectLists
  | selectListById (id : Nat)
  | selectTodosFor (list_id : Nat)
  | insertList (title : String)
  | updateList (id : Nat) (title : String)
  | deleteFromLists (id : Nat)
  | insertTodo (title : String) (list_id : Nat)
  | deleteTodo (id : Nat) (list_id : Nat)
  | updateTodoStatus (id : Nat) (list_id : Nat) (completed : Bool)
deriving Repr, DecidableEq

/-- Whether a statement reads or writes the `todos` table. -/
def SqlStmt.touches_todos : SqlStmt → Bool
  | .createTable table => table == "todos"
  | .selectTodosFor _ => true
  | .insertTodo _ _ => true
  | .deleteTodo _ _ => true
  | .updateTodoStatus _ _ _ => true
  | _ => false

namespace DatabasePersistence

/-- Embedding of `DatabasePersistence.DBNAME`. -/
def DBNAME : String := "todos"

/-- Value of `self.dbname` after `DatabasePersistence.__init__`: the body of
`__init__` is the single assignment `self.dbname = DatabasePersistence.DBNAME`. -/
def init_dbname : String := DBNAME

/-- Statements executed by `DatabasePersistence.__init__`: its body performs
no database access at all, so the trace is empty. -/
def init_statements : List SqlStmt := []

/-- Statements executed by `DatabasePersistence.delete_list(list_id)`: the
single parameterized statement `DELETE from lists WHERE id = %s`. -/
def delete_list_statements (list_id : Nat) : List SqlStmt :=
  [SqlStmt.deleteFromLists list_id]

/-- Modelled from the spec: the schema bootstrap (the `CREATE TABLE` script
declaring `todos.list_id REFERENCES lists(id) ON DELETE CASCADE`) is not
among the provided sources; per the spec's schema, executing
`DELETE from lists WHERE id = %s` removes the matching `lists` row and, by
the cascading foreign key, every `todos` row whose `list_id` references it. -/
def execDeleteListCascade (list_id : Nat) (s : DBState) : DBState :=
  { lists := s.lists.filter (fun r => r.id != list_id)
    todos := s.todos.filter (fun t => t.list_id != list_id) }

/-- Embedding of `DatabasePersistence._find_todos_for_list(todo_list_id)` in
the success case: `SELECT * FROM todos WHERE list_id = %s`. -/
def find_todos_for_list (todo_list_id : Nat) (s : DBState) : List TodoRow :=
  s.todos.filter (fun t => t.list_id == todo_list_id)

/-- Embedding of `DatabasePersistence.all_lists()` in the success case:
`SELECT * FROM lists`, then one todos query per returned row, attached as the
`'todos'` key. -/
def all_lists (s : DBState) : List DBTodoList :=
  s.lists.map (fun r => ⟨r.id, r.title, find_todos_for_list r.id s⟩)

/-- Embedding of `DatabasePersistence.find_list(todo_list_id)` in the
success case: `SELECT * FROM lists WHERE id = %s` with `fetchone`, returning
`None` when no row matches, else the row with its todos attached. -/
def find_list (todo_list_id : Nat) (s : DBState) : Option DBTodoList :=
  (s.lists.find? (fun r => r.id == todo_list_id)).map
    (fun r => ⟨r.id, r.title, find_todos_for_list r.id s⟩)

/-- Effect of `DatabasePersistence.delete_list(list_id)` on the store in the
success case: the one issued statement deletes the `lists` row, and the
spec-modelled cascading foreign key removes the row's todos. -/
def delete_list (list_id : Nat) (s : DBState) : DBState :=
  execDeleteListCascade list_id s

end DatabasePersistence

/-- Backend failure kinds raised by the database driver, following the
psycopg2 exception hierarchy used in `todos/database_persistence.py`:
`OperationalError` (connection/availability failure) and statement-level
errors both subclass `DatabaseError`; `InterfaceError` does not. -/
inductive BackendErr where
  | operational
  | interface
  | statement
deriving Repr, DecidableEq

/-- Whether `except DatabaseError` catches the failure (psycopg2 class
hierarchy: `InterfaceError` is the only one of the three outside it). -/
def BackendErr.isDatabaseError : BackendErr → Bool
  | .interface => false
  | _ => true

/-- Control-flow outcome of running a piece of the provider: a normal value,
a `sys.exit(code)` in flight (`SystemExit` is caught by none of the except
clauses in the file), or a backend exception still propagating. -/
inductive Flow (α : Type) where
  | ok (a : α)
  | exit (code : Nat)
  | raised (e : BackendErr)
deriving Repr, DecidableEq

namespace DatabasePersistence

/-- Embedding of the `_database_connect` context manager around a body:
`connect(...)` may fail with `connBeh = some e`; `except OperationalError`
turns an `OperationalError` — whether from `connect` or propagating out of
the body through the yield point — into `sys.exit(1)`; every other
exception propagates. -/
def databaseConnect (connBeh : Option BackendErr) (body : Flow α) : Flow α :=
  match connBeh with
  | some e => if e = .operational then .exit 1 else .raised e
  | none =>
    match body with
    | .raised .operational => .exit 1
    | r => r

/-- Embedding of the `_database_cursor` context manager around a body: wraps
`_database_connect` and turns an escaping `InterfaceError` into
`sys.exit(1)`. -/
def databaseCursor (connBeh : Option BackendErr) (body : Flow α) : Flow α :=
  match databaseConnect connBeh body with
  | .raised .interface => .exit 1
  | r => r

/-- One `with self._database_cursor() as cursor: cursor.execute(...)` unit:
`execBeh` is the driver's outcome for the statement itself. -/
def runQuery (connBeh : Option BackendErr) (execBeh : Except BackendErr α) : Flow α :=
  databaseCursor connBeh
    (match execBeh with
     | .ok a => .ok a
     | .error e => .raised e)

/-- Embedding of `_find_todos_for_list` including its
`except DatabaseError: return []` clause. -/
def find_todos_flow (connBeh : Option BackendErr)
    (execBeh : Except BackendErr (List TodoRow)) : Flow (List TodoRow) :=
  match runQuery connBeh execBeh with
  | .raised e => if e.isDatabaseError then .ok [] else .raised e
  | r => r

/-- The per-row loop of `all_lists`: attach the todos of each returned
`lists` row, each fetch running with its own connection. -/
def attach_todos (connBeh : Option BackendErr)
    (todosBeh : Nat → Except BackendErr (List TodoRow)) :
    List ListRow → Flow (List DBTodoList)
  | [] => .ok []
  | r :: rs =>
    match find_todos_flow connBeh (todosBeh r.id) with
    | .ok ts =>
      match attach_todos connBeh todosBeh rs with
      | .ok ls => .ok (⟨r.id, r.title, ts⟩ :: ls)
      | f => f
    | .exit c => .exit c
    | .raised e => .raised e

/-- Embedding of `DatabasePersistence.all_lists()` with explicit backend
behavior: the main `SELECT * FROM lists` under
`except DatabaseError: return []`, then the todos fetch per row. -/
def all_lists_flow (connBeh : Option BackendErr)
    (listsBeh : Except BackendErr (List ListRow))
    (todosBeh : Nat → Except BackendErr (List TodoRow)) : Flow (List DBTodoList) :=
  match runQuery connBeh listsBeh with
  | .raised e => if e.isDatabaseError then .ok [] else .raised e
  | .exit c => .exit c
  | .ok rows => attach_todos connBeh todosBeh rows

/-- Embedding of `DatabasePersistence.find_list(todo_list_id)` with explicit
backend behavior: `fetchone` may yield no row (`.ok none`); the
`except DatabaseError` clause returns `None`; on success the todos fetch
runs afterwards. -/
def find_list_flow (connBeh : Option BackendErr)
    (rowBeh : Except BackendErr (Option ListRow))
    (todosBeh : Nat → Except BackendErr (List TodoRow)) : Flow (Option DBTodoList) :=
  match runQuery connBeh rowBeh with
  | .raised e => if e.isDatabaseError then .ok none else .raised e
  | .exit c => .exit c
  | .ok none => .ok none
  | .ok (some r) =>
    match find_todos_flow connBeh (todosBeh r.id) with
    | .ok ts => .ok (some ⟨r.id, r.title, ts⟩)
    | .exit c => .exit c
    | .raised e => .raised e

/-- Embedding of `DatabasePersistence.delete_list(list_id)` with explicit
backend behavior and its effect on the store: on success the statement's
(cascading) delete applies; under `except DatabaseError` the store is left
unchanged. -/
def delete_list_flow (connBeh : Option BackendErr)
    (execBeh : Except BackendErr Unit) (list_id : Nat) (s : DBState) : Flow DBState :=
  match runQuery connBeh execBeh with
  | .ok _ => .ok (delete_list list_id s)
  | .raised e => if e.isDatabaseError then .ok s else .raised e
  | .exit c => .exit c

end DatabasePersistence

namespace utils

/-- Access to the `"title"` key of an item. `sort_items` reads only this key
of its items, and `app.py` calls it on both item shapes (lists and todos). -/
class HasTitle (α : Type) where
  title : α → String

instance : HasTitle Todo :=
  ⟨Todo.title⟩

instance : HasTitle TodoList :=
  ⟨TodoList.title⟩

/-- Sort key of `sorted(items, key=lambda item: item["title"].lower())`. -/
def sortKey [HasTitle α] (item : α) : String :=
  (HasTitle.title item).toLower

/-- Key comparison of the Python sort: keys are strings compared by the
lexicographic order on code points. -/
def titleLe [HasTitle α] (a b : α) : Prop :=
  sortKey a ≤ sortKey b

instance decTitleLe [HasTitle α] : DecidableRel (@titleLe α _) :=
  fun a b => inferInstanceAs (Decidable (sortKey a ≤ sortKey b))

instance totalTitleLe [HasTitle α] : IsTotal α titleLe :=
  ⟨fun a b => le_total (sortKey a) (sortKey b)⟩

instance transTitleLe [HasTitle α] : IsTrans α titleLe :=
  ⟨fun _ _ _ hab hbc => le_trans hab hbc⟩

/-- Embedding of `sorted(items, key=lambda item: item["title"].lower())`.
CPython's `sorted` is a stable sort with respect to the total preorder
`titleLe`; the stable sort for a total preorder is unique, and insertion
sort — which inserts each element, taken from the right, before the first
weakly greater element — produces exactly it. -/
def pySorted [HasTitle α] (items : List α) : List α :=
  List.insertionSort titleLe items

/-- Embedding of `sort_items(items, select_completed)` from
`todos/utils.py`: one pass over the sorted items appends each to either the
`incompleted` or the `completed` accumulator; the result is
`incompleted + completed`. -/
def sort_items [HasTitle α] (items : List α) (select_completed : α → Bool) : List α :=
  let acc := (pySorted items).foldl
    (fun (acc : List α × List α) lst =>
      if select_completed lst then (acc.1, acc.2 ++ [lst])
      else (acc.1 ++ [lst], acc.2))
    ([], [])
  acc.1 ++ acc.2

end utils

namespace utils

theorem partition_foldl (p : α → Bool) (l : List α) (acc1 acc2 : List α) :
    l.foldl
      (fun (acc : List α × List α) lst =>
        if p lst then (acc.1, acc.2 ++ [lst]) else (acc.1 ++ [lst], acc.2))
      (acc1, acc2)
    = (acc1 ++ l.filter (fun x => !p x), acc2 ++ l.filter p) := by
  induction l generalizing acc1 acc2 with
  | nil => simp
  | cons x t ih =>
    by_cases hx : p x <;>
      simp [List.foldl_cons, hx, ih, List.filter_cons]

theorem sort_items_eq [HasTitle α] (items : List α) (p : α → Bool) :
    sort_items items p
      = (pySorted items).filter (fun x => !p x) ++ (pySorted items).filter p := by
  show ((pySorted items).foldl _ ([], [])).1 ++ ((pySorted items).foldl _ ([], [])).2
      = _
  rw [partition_foldl p (pySorted items) [] []]
  simp

theorem orderedInsert_head [HasTitle α] (x : α) (l : List α)
    (h : ∀ y ∈ l, titleLe x y) :
    List.orderedInsert titleLe x l = x :: l := by
  cases l with
  | nil => rfl
  | cons b t =>
    simp only [List.orderedInsert]
    rw [if_pos (h b (by simp))]

theorem filter_orderedInsert [HasTitle α] (q : α → Bool) (x : α) (l : List α)
    (hl : List.Sorted titleLe l) :
    (List.orderedInsert titleLe x l).filter q
      = if q x then List.orderedInsert titleLe x (l.filter q) else l.filter q := by
  induction l with
  | nil =>
    by_cases hq : q x <;> simp [List.orderedInsert, List.filter_cons, hq]
  | cons b t ih =>
    have hbt : ∀ y ∈ t, titleLe b y := (List.sorted_cons.mp hl).1
    have ht : List.Sorted titleLe t := (List.sorted_cons.mp hl).2
    by_cases hxb : titleLe x b
    · simp only [List.orderedInsert]
      rw [if_pos hxb]
      by_cases hq : q x
      · have hall : ∀ y ∈ (b :: t).filter q, titleLe x y := by
          intro y hy
          rcases List.mem_filter.mp hy with ⟨hy', _⟩
          rcases List.mem_cons.mp hy' with hyb | hyt
          · exact hyb ▸ hxb
          · exact le_trans hxb (hbt y hyt)
        rw [if_pos hq, orderedInsert_head x _ hall, List.filter_cons, if_pos hq]
      · rw [if_neg hq, List.filter_cons, if_neg hq]
    · simp only [List.orderedInsert]
      rw [if_neg hxb]
      rw [List.filter_cons, List.filter_cons]
      by_cases hqb : q b
      · rw [if_pos hqb, if_pos hqb, ih ht]
        by_cases hq : q x
        · rw [if_pos hq, if_pos hq]
          simp only [List.orderedInsert]
          rw [if_neg hxb]
        · rw [if_neg hq, if_neg hq]
      · rw [if_neg hqb, if_neg hqb]
        exact ih ht

theorem filter_insertionSort [HasTitle α] (q : α → Bool) (l : List α) :
    (List.insertionSort titleLe l).filter q
      = List.insertionSort titleLe (l.filter q) := by
  induction l with
  | nil => rfl
  | cons x t ih =>
    simp only [List.insertionSort]
    rw [filter_orderedInsert q x _ (List.sorted_insertionSort titleLe t), ih,
      List.filter_cons]
    by_cases hq : q x
    · rw [if_pos hq, if_pos hq]
      simp only [List.insertionSort]
    · rw [if_neg hq, if_neg hq]

theorem sorted_of_const_key [HasTitle α] (k : String) (l : List α)
    (h : ∀ x ∈ l, sortKey x = k) : List.Sorted titleLe l := by
  induction l with
  | nil => simp
  | cons x t ih =>
    rw [List.sorted_cons]
    refine ⟨fun y hy => ?_, ih (fun y hy => h y (List.mem_cons_of_mem x hy))⟩
    show sortKey x ≤ sortKey y
    rw [h x (List.mem_cons_self x t), h y (List.mem_cons_of_mem x hy)]

theorem filter_pySorted_const_key [HasTitle α] (p : α → Bool) (k : String)
    (items : List α) :
    (pySorted items).filter (fun x => p x && (sortKey x == k))
      = items.filter (fun x => p x && (sortKey x == k)) := by
  rw [show pySorted items = List.insertionSort titleLe items from rfl,
    filter_insertionSort]
  refine List.Sorted.insertionSort_eq (sorted_of_const_key k _ ?_)
  intro x hx
  have := (List.mem_filter.mp hx).2
  have hk : (sortKey x == k) = true := (Bool.and_eq_true _ _).mp this |>.2
  exact eq_of_beq hk

end utils

/-- C1: the claim states that `mark_all_todos_completed` sets every todo of
the list to completed=true, turning flags [false, true, false] into
[true, true, true]. The shared utility `utils.mark_all_todos_completed` —
the implementation the app's complete-all route calls — instead negates
each flag, producing [true, false, true] on that input, while the
identically named `SessionPersistence` method (docstring: "Sets all todos
completed status to True") does set every flag to true. -/
theorem C1_mark_all_exhibit :
    (utils.mark_all_todos_completed
        ⟨"L1", "Chores",
          [⟨"t1", "one", false⟩, ⟨"t2", "two", true⟩, ⟨"t3", "three", false⟩]⟩).todos.map
        Todo.completed = [true, false, true]
  ∧ (SessionPersistence.mark_all_todos_completed
        ⟨"L1", "Chores",
          [⟨"t1", "one", false⟩, ⟨"t2", "two", true⟩, ⟨"t3", "three", false⟩]⟩).todos.map
        Todo.completed = [true, true, true] := by
  exact ⟨rfl, rfl⟩

/-- C2 counterexample: the claim states that constructing the durable
provider runs the idempotent schema bootstrap creating the `lists` and
`todos` tables. The body of `DatabasePersistence.__init__` is the single
assignment `self.dbname = DatabasePersistence.DBNAME`; it executes no
statement at all, in particular no CREATE TABLE. -/
theorem C2_counterexample :
    ¬ (SqlStmt.createTable "lists" ∈ DatabasePersistence.init_statements
       ∧ SqlStmt.createTable "todos" ∈ DatabasePersistence.init_statements) := by
  intro h
  simpa [DatabasePersistence.init_statements] using h.1

/-- C2 amended: constructing the durable provider performs no schema
bootstrap — `__init__` only records the database name "todos" and executes
no statement; the schema with the cascading foreign key is assumed to exist
externally (modelled from the spec). Cascading deletion of todos on list
deletion is enforced by that constraint rather than by application code:
`delete_list` issues exactly one DELETE statement, that statement does not
touch the `todos` table, and after it runs no todos row of the deleted list
remains. -/
theorem C2_no_bootstrap_cascade_by_constraint :
    DatabasePersistence.init_statements = []
  ∧ DatabasePersistence.init_dbname = "todos"
  ∧ ∀ list_id : Nat,
      DatabasePersistence.delete_list_statements list_id
        = [SqlStmt.deleteFromLists list_id]
      ∧ ((DatabasePersistence.delete_list_statements list_id).all
            (fun st => ! st.touches_todos)) = true
      ∧ ∀ s : DBState,
          ((DatabasePersistence.delete_list list_id s).todos.all
            (fun t => t.list_id != list_id)) = true := by
  refine ⟨rfl, rfl, fun list_id => ⟨rfl, rfl, fun s => ?_⟩⟩
  rw [List.all_eq_true]
  intro t ht
  exact (List.mem_filter.mp ht).2

/-- C7: list-title validation returns the "not unique" error whenever some
existing list has a case-sensitively equal title (even if the length is also
invalid); otherwise it returns the "length" error exactly when the title's
length is outside [1,100], and succeeds otherwise — uniqueness is checked
before length. -/
theorem C7_list_title_validation (title : String) (lists : List TodoList) :
    ((∃ lst ∈ lists, lst.title = title) →
        utils.error_for_list_title title lists = some "Title must be unique.")
  ∧ ((∀ lst ∈ lists, lst.title ≠ title) →
      ((title.length < 1 ∨ 100 < title.length) →
          utils.error_for_list_title title lists
            = some "Title must be between 1 and 100 characters.")
      ∧ (1 ≤ title.length ∧ title.length ≤ 100 →
          utils.error_for_list_title title lists = none)) := by
  unfold utils.error_for_list_title
  constructor
  · rintro ⟨lst, hmem, htitle⟩
    rw [if_pos]
    exact List.any_eq_true.mpr ⟨lst, hmem, by simp [htitle]⟩
  · intro hall
    have hany : ¬ (lists.any (fun lst => lst.title == title) = true) := by
      rw [List.any_eq_true]
      rintro ⟨lst, hmem, heq⟩
      exact hall lst hmem (by simpa using heq)
    rw [if_neg hany]
    constructor
    · intro hbad
      rw [if_pos]
      rintro ⟨h1, h2⟩
      rcases hbad with h | h <;> omega
    · intro hgood
      rw [if_neg (not_not_intro hgood)]

/-- C7 witness: with an existing list titled by the empty string, validating
the empty string reports "not unique" even though its length is also outside
[1,100]. -/
theorem C7_witness :
    utils.error_for_list_title "" [⟨"1", "", []⟩] = some "Title must be unique." :=
  (C7_list_title_validation "" [⟨"1", "", []⟩]).1 ⟨⟨"1", "", []⟩, by simp, rfl⟩

/-- C8: `is_list_completed L` is true iff `L` has at least one todo and
every todo of `L` is completed; in particular on a list with zero todos it
is false. -/
theorem C8_is_list_completed (L : TodoList) :
    (utils.is_list_completed L = true
        ↔ L.todos ≠ [] ∧ ∀ t ∈ L.todos, t.completed = true)
  ∧ (L.todos = [] → utils.is_list_completed L = false) := by
  constructor
  · unfold utils.is_list_completed utils.todos_remaining
    rw [Bool.and_eq_true, decide_eq_true_iff, decide_eq_true_iff]
    constructor
    · rintro ⟨hlen, hrem⟩
      refine ⟨fun h => by rw [h] at hlen; simp at hlen, ?_⟩
      intro t ht
      by_contra hc
      have hmem : t ∈ L.todos.filter (fun todo => !todo.completed) :=
        List.mem_filter.mpr ⟨ht, by simp [Bool.eq_false_iff.mpr hc]⟩
      rw [List.length_eq_zero] at hrem
      rw [hrem] at hmem
      simp at hmem
    · rintro ⟨hne, hall⟩
      refine ⟨List.length_pos.mpr hne, ?_⟩
      have hfil : L.todos.filter (fun todo => !todo.completed) = [] := by
        rw [List.filter_eq_nil_iff]
        intro t ht
        simp [hall t ht]
      rw [hfil]
      rfl
  · intro h
    simp [utils.is_list_completed, h]

/-- C8 witness: a list with zero todos is not completed. -/
theorem C8_witness : utils.is_list_completed ⟨"1", "empty", []⟩ = false :=
  (C8_is_list_completed ⟨"1", "empty", []⟩).2 rfl

theorem update_first_list_getElem_ne (target : String) (f : TodoList → TodoList)
    (lists : List TodoList) (i : Nat) (l : TodoList)
    (hi : lists[i]? = some l) (hne : l.id ≠ target) :
    (SessionPersistence.update_first_list target f lists)[i]? = some l := by
  induction lists generalizing i with
  | nil => simp at hi
  | cons hd rest ih =>
    simp only [SessionPersistence.update_first_list]
    by_cases hid : hd.id == target
    · rw [if_pos hid]
      cases i with
      | zero =>
        rw [List.getElem?_cons_zero] at hi
        rw [Option.some_inj.mp hi] at hid
        exact absurd (eq_of_beq hid) hne
      | succ j =>
        rw [List.getElem?_cons_succ] at hi ⊢
        exact hi
    · rw [if_neg hid]
      cases i with
      | zero =>
        rw [List.getElem?_cons_zero] at hi ⊢
        exact hi
      | succ j =>
        rw [List.getElem?_cons_succ] at hi ⊢
        exact ih j hi

theorem update_first_list_length (target : String) (f : TodoList → TodoList)
    (lists : List TodoList) :
    (SessionPersistence.update_first_list target f lists).length = lists.length := by
  induction lists with
  | nil => rfl
  | cons hd rest ih =>
    simp only [SessionPersistence.update_first_list]
    by_cases hid : hd.id == target
    · rw [if_pos hid]
      simp
    · rw [if_neg hid]
      simp [ih]

/-- C9: deleting a todo by id (shared utility and ephemeral backend) removes
exactly the todos whose id matches, preserves the relative order of the
remaining todos and all their fields, leaves the list's own id and title
unchanged, and — at session level — leaves every list whose id differs from
the targeted one untouched. -/
theorem C9_delete_todo_exact (todo_id : String) (lst : TodoList)
    (lists : List TodoList) (target : String) :
    (utils.delete_todo_by_id todo_id lst).id = lst.id
  ∧ (utils.delete_todo_by_id todo_id lst).title = lst.title
  ∧ (utils.delete_todo_by_id todo_id lst).todos.Sublist lst.todos
  ∧ (∀ t : Todo, (utils.delete_todo_by_id todo_id lst).todos.count t
      = if t.id = todo_id then 0 else lst.todos.count t)
  ∧ SessionPersistence.delete_todo todo_id lst = utils.delete_todo_by_id todo_id lst
  ∧ (SessionPersistence.update_first_list target
        (SessionPersistence.delete_todo todo_id) lists).length = lists.length
  ∧ ∀ (i : Nat) (l : TodoList), lists[i]? = some l → l.id ≠ target →
      (SessionPersistence.update_first_list target
          (SessionPersistence.delete_todo todo_id) lists)[i]? = some l := by
  refine ⟨rfl, rfl, List.filter_sublist _, fun t => ?_, rfl,
    update_first_list_length target _ lists,
    fun i l hi hne => update_first_list_getElem_ne target _ lists i l hi hne⟩
  by_cases hid : t.id = todo_id
  · rw [if_pos hid, List.count_eq_zero]
    intro hmem
    have := (List.mem_filter.mp hmem).2
    simp [hid] at this
  · rw [if_neg hid]
    exact List.count_filter (by simp [bne_iff_ne, hid])

/-- C9 witness: in a session holding one list whose id differs from the
targeted id, that list's entry is unchanged by the session-level delete. -/
theorem C9_witness :
    (SessionPersistence.update_first_list "z"
        (SessionPersistence.delete_todo "t9") [⟨"a", "chores", []⟩])[0]?
      = some ⟨"a", "chores", []⟩ :=
  (C9_delete_todo_exact "t9" ⟨"a", "chores", []⟩ [⟨"a", "chores", []⟩]
      "z").2.2.2.2.2.2 0 ⟨"a", "chores", []⟩ rfl (by decide)

/-- C4: under both backends, `delete_list(id)` removes the list and all of
its todos from the results of subsequent `all_lists()` and `find_list(id)`
calls, and is a no-op when no list has that id (for the durable backend, in
states satisfying the foreign-key integrity that no todos row references a
missing list). -/
theorem C4_delete_list_cascade (list_id : String) (lists : List TodoList)
    (id : Nat) (s : DBState) :
    SessionPersistence.find_list list_id
        (SessionPersistence.delete_list list_id lists) = none
  ∧ ((SessionPersistence.all_lists
        (SessionPersistence.delete_list list_id lists)).all
      (fun lst => lst.id != list_id)) = true
  ∧ ((lists.all (fun lst => lst.id != list_id)) = true →
      SessionPersistence.delete_list list_id lists = lists)
  ∧ DatabasePersistence.find_list id (DatabasePersistence.delete_list id s) = none
  ∧ ((DatabasePersistence.all_lists (DatabasePersistence.delete_list id s)).all
      (fun lst => lst.id != id)) = true
  ∧ ((DatabasePersistence.delete_list id s).todos.all
      (fun t => t.list_id != id)) = true
  ∧ ((s.lists.all (fun r => r.id != id)) = true →
      (s.todos.all (fun t => t.list_id != id)) = true →
      DatabasePersistence.delete_list id s = s) := by
  refine ⟨?_, ?_, ?_, ?_, ?_, ?_, ?_⟩
  · rw [SessionPersistence.find_list, List.find?_eq_none]
    intro lst hmem
    have := (List.mem_filter.mp hmem).2
    simp only [bne_iff_ne, ne_eq] at this
    simp [this]
  · rw [List.all_eq_true]
    intro lst hmem
    exact (List.mem_filter.mp hmem).2
  · intro hall
    rw [SessionPersistence.delete_list, List.filter_eq_self]
    exact List.all_eq_true.mp hall
  · rw [DatabasePersistence.find_list, Option.map_eq_none', List.find?_eq_none]
    intro r hmem
    have := (List.mem_filter.mp hmem).2
    simp only [bne_iff_ne, ne_eq] at this
    simp [this]
  · rw [List.all_eq_true]
    intro lst hmem
    rcases List.mem_map.mp hmem with ⟨r, hr, hrl⟩
    have := (List.mem_filter.mp hr).2
    rw [← hrl]
    exact this
  · rw [List.all_eq_true]
    intro t ht
    exact (List.mem_filter.mp ht).2
  · intro hlists htodos
    cases s with
    | mk ls ts =>
      simp only [DatabasePersistence.delete_list, DatabasePersistence.execDeleteListCascade]
      congr 1
      · exact List.filter_eq_self.mpr (List.all_eq_true.mp hlists)
      · exact List.filter_eq_self.mpr (List.all_eq_true.mp htodos)

/-- C4 witness: deleting an absent id is a no-op under both backends. -/
theorem C4_witness :
    SessionPersistence.delete_list "x" [⟨"a", "t", []⟩] = [⟨"a", "t", []⟩]
  ∧ DatabasePersistence.delete_list 5 ⟨[⟨1, "t"⟩], [⟨2, "m", false, 1⟩]⟩
      = ⟨[⟨1, "t"⟩], [⟨2, "m", false, 1⟩]⟩ :=
  ⟨(C4_delete_list_cascade "x" [⟨"a", "t", []⟩] 5
      ⟨[⟨1, "t"⟩], [⟨2, "m", false, 1⟩]⟩).2.2.1 (by decide),
   (C4_delete_list_cascade "x" [⟨"a", "t", []⟩] 5
      ⟨[⟨1, "t"⟩], [⟨2, "m", false, 1⟩]⟩).2.2.2.2.2.2 (by decide) (by decide)⟩

theorem runQuery_cases (c : Option BackendErr) (b : Except BackendErr α) :
    (∃ a, DatabasePersistence.runQuery c b = .ok a)
  ∨ DatabasePersistence.runQuery c b = .exit 1
  ∨ DatabasePersistence.runQuery c b = .raised .statement := by
  rcases c with _ | e
  · rcases b with e | a
    · rcases e with _ | _ | _ <;>
        simp [DatabasePersistence.runQuery, DatabasePersistence.databaseCursor,
          DatabasePersistence.databaseConnect]
    · exact Or.inl ⟨a, rfl⟩
  · rcases e with _ | _ | _ <;>
      simp [DatabasePersistence.runQuery, DatabasePersistence.databaseCursor,
        DatabasePersistence.databaseConnect]

theorem runQuery_conn_operational (b : Except BackendErr α) :
    DatabasePersistence.runQuery (some .operational) b = .exit 1 := rfl

theorem find_todos_flow_shape (c : Option BackendErr)
    (b : Except BackendErr (List TodoRow)) :
    (∃ ts, DatabasePersistence.find_todos_flow c b = .ok ts)
  ∨ DatabasePersistence.find_todos_flow c b = .exit 1 := by
  rcases runQuery_cases c b with ⟨a, h⟩ | h | h <;>
    simp [DatabasePersistence.find_todos_flow, h, BackendErr.isDatabaseError]

theorem attach_todos_shape (c : Option BackendErr)
    (tb : Nat → Except BackendErr (List TodoRow)) (rows : List ListRow) :
    (∃ ls, DatabasePersistence.attach_todos c tb rows = .ok ls)
  ∨ DatabasePersistence.attach_todos c tb rows = .exit 1 := by
  induction rows with
  | nil => exact Or.inl ⟨[], rfl⟩
  | cons r rs ih =>
    rcases find_todos_flow_shape c (tb r.id) with ⟨ts, h⟩ | h
    · rcases ih with ⟨ls, hrec⟩ | hrec
      · exact Or.inl ⟨⟨r.id, r.title, ts⟩ :: ls, by
          simp [DatabasePersistence.attach_todos, h, hrec]⟩
      · exact Or.inr (by simp [DatabasePersistence.attach_todos, h, hrec])
    · exact Or.inr (by simp [DatabasePersistence.attach_todos, h])

/-- C3: the durable provider never lets a backend failure escape to its
caller: for every backend behavior, `all_lists`, `find_list` and
`delete_list` end either normally or in `sys.exit(1)` — never with an
uncaught backend exception; a statement failure turns `all_lists` into the
empty sequence, `find_list` into the not-found sentinel `None`, and
`delete_list` into a no-op on the store; a connection/availability failure
terminates the process with exit code 1. -/
theorem C3_backend_failure_handling (connBeh : Option BackendErr)
    (listsBeh : Except BackendErr (List ListRow))
    (rowBeh : Except BackendErr (Option ListRow))
    (execBeh : Except BackendErr Unit)
    (todosBeh : Nat → Except BackendErr (List TodoRow))
    (list_id : Nat) (s : DBState) :
    (∀ e, DatabasePersistence.all_lists_flow connBeh listsBeh todosBeh ≠ .raised e)
  ∧ (∀ e, DatabasePersistence.find_list_flow connBeh rowBeh todosBeh ≠ .raised e)
  ∧ (∀ e, DatabasePersistence.delete_list_flow connBeh execBeh list_id s ≠ .raised e)
  ∧ (connBeh = some .operational →
      DatabasePersistence.all_lists_flow connBeh listsBeh todosBeh = .exit 1
      ∧ DatabasePersistence.find_list_flow connBeh rowBeh todosBeh = .exit 1
      ∧ DatabasePersistence.delete_list_flow connBeh execBeh list_id s = .exit 1)
  ∧ (connBeh = none → listsBeh = .error .statement →
      DatabasePersistence.all_lists_flow connBeh listsBeh todosBeh = .ok [])
  ∧ (connBeh = none → rowBeh = .error .statement →
      DatabasePersistence.find_list_flow connBeh rowBeh todosBeh = .ok none)
  ∧ (connBeh = none → execBeh = .error .statement →
      DatabasePersistence.delete_list_flow connBeh execBeh list_id s = .ok s) := by
  refine ⟨?_, ?_, ?_, ?_, ?_, ?_, ?_⟩
  · intro e
    rcases runQuery_cases connBeh listsBeh with ⟨rows, h⟩ | h | h
    · rcases attach_todos_shape connBeh todosBeh rows with ⟨ls, ha⟩ | ha <;>
        simp [DatabasePersistence.all_lists_flow, h, ha]
    · simp [DatabasePersistence.all_lists_flow, h]
    · simp [DatabasePersistence.all_lists_flow, h, BackendErr.isDatabaseError]
  · intro e
    rcases runQuery_cases connBeh rowBeh with ⟨row, h⟩ | h | h
    · rcases row with _ | r
      · simp [DatabasePersistence.find_list_flow, h]
      · rcases find_todos_flow_shape connBeh (todosBeh r.id) with ⟨ts, ht⟩ | ht <;>
          simp [DatabasePersistence.find_list_flow, h, ht]
    · simp [DatabasePersistence.find_list_flow, h]
    · simp [DatabasePersistence.find_list_flow, h, BackendErr.isDatabaseError]
  · intro e
    rcases runQuery_cases connBeh execBeh with ⟨u, h⟩ | h | h <;>
      simp [DatabasePersistence.delete_list_flow, h, BackendErr.isDatabaseError]
  · intro hc
    subst hc
    exact ⟨by simp [DatabasePersistence.all_lists_flow, runQuery_conn_operational],
      by simp [DatabasePersistence.find_list_flow, runQuery_conn_operational],
      by simp [DatabasePersistence.delete_list_flow, runQuery_conn_operational]⟩
  · intro hc hb
    subst hc
    subst hb
    rfl
  · intro hc hb
    subst hc
    subst hb
    rfl
  · intro hc hb
    subst hc
    subst hb
    rfl

/-- C3 witness: with an unreachable store the provider exits with code 1;
with a statement failure on the DELETE the store is left unchanged. -/
theorem C3_witness :
    DatabasePersistence.all_lists_flow (some .operational) (.ok [])
        (fun _ => .ok []) = .exit 1
  ∧ DatabasePersistence.delete_list_flow none (.error .statement) 1
        ⟨[⟨1, "t"⟩], []⟩ = .ok ⟨[⟨1, "t"⟩], []⟩ :=
  ⟨((C3_backend_failure_handling (some .operational) (.ok []) (.ok none) (.ok ())
      (fun _ => .ok []) 1 ⟨[⟨1, "t"⟩], []⟩).2.2.2.1 rfl).1,
   (C3_backend_failure_handling none (.ok []) (.ok none) (.error .statement)
      (fun _ => .ok []) 1 ⟨[⟨1, "t"⟩], []⟩).2.2.2.2.2.2 rfl rfl⟩

theorem filter_subpred (q r : α → Bool) (l : List α)
    (h : ∀ x, q x = true → r x = true) :
    (l.filter r).filter q = l.filter q := by
  rw [List.filter_filter]
  refine List.filter_congr ?_
  intro x _
  cases hq : q x
  · simp
  · simp [h x hq]

theorem filter_disjoint_pred (q r : α → Bool) (l : List α)
    (h : ∀ x, q x = true → r x = false) :
    (l.filter r).filter q = [] := by
  rw [List.filter_filter]
  rw [List.filter_eq_nil_iff]
  intro x _
  cases hq : q x
  · simp
  · simp [h x hq]

theorem sort_items_filter_not [utils.HasTitle α] (items : List α) (p : α → Bool)
    (g : α → Bool) (hg : ∀ x, g x = true → p x = false) :
    (utils.sort_items items p).filter g = (utils.pySorted items).filter g := by
  rw [utils.sort_items_eq, List.filter_append,
    filter_subpred g (fun x => !p x) _ (fun x hx => by simp [hg x hx]),
    filter_disjoint_pred g p _ hg, List.append_nil]

theorem sort_items_filter_pos [utils.HasTitle α] (items : List α) (p : α → Bool)
    (g : α → Bool) (hg : ∀ x, g x = true → p x = true) :
    (utils.sort_items items p).filter g = (utils.pySorted items).filter g := by
  rw [utils.sort_items_eq, List.filter_append,
    filter_disjoint_pred g (fun x => !p x) _ (fun x hx => by simp [hg x hx]),
    filter_subpred g p _ hg, List.nil_append]

/-- C5: for every sequence of items and every predicate, `sort_items`
returns a permutation of the items in which every item not satisfying the
predicate precedes every item satisfying it, each of the two partitions is
ordered by case-insensitive title ascending, and within either partition the
items of any fixed key keep their original relative order (stable sort). -/
theorem C5_sort_items_spec {α : Type} [utils.HasTitle α] (items : List α)
    (p : α → Bool) :
    (utils.sort_items items p).Perm items
  ∧ utils.sort_items items p
      = (utils.sort_items items p).filter (fun x => !p x)
        ++ (utils.sort_items items p).filter p
  ∧ List.Sorted utils.titleLe ((utils.sort_items items p).filter (fun x => !p x))
  ∧ List.Sorted utils.titleLe ((utils.sort_items items p).filter p)
  ∧ ∀ k : String,
      (utils.sort_items items p).filter
          (fun x => !p x && (utils.sortKey x == k))
        = items.filter (fun x => !p x && (utils.sortKey x == k))
      ∧ (utils.sort_items items p).filter
          (fun x => p x && (utils.sortKey x == k))
        = items.filter (fun x => p x && (utils.sortKey x == k)) := by
  have hnot : (utils.sort_items items p).filter (fun x => !p x)
      = (utils.pySorted items).filter (fun x => !p x) :=
    sort_items_filter_not items p _ (fun x hx => by simpa using hx)
  have hpos : (utils.sort_items items p).filter p
      = (utils.pySorted items).filter p :=
    sort_items_filter_pos items p p (fun _ hx => hx)
  refine ⟨?_, ?_, ?_, ?_, ?_⟩
  · rw [utils.sort_items_eq]
    exact ((List.perm_append_comm.trans
        (List.filter_append_perm p (utils.pySorted items))).trans
      (List.perm_insertionSort utils.titleLe items))
  · rw [hnot, hpos, utils.sort_items_eq]
  · rw [hnot]
    exact (List.sorted_insertionSort utils.titleLe items).filter _
  · rw [hpos]
    exact (List.sorted_insertionSort utils.titleLe items).filter _
  · intro k
    constructor
    · rw [sort_items_filter_not items p _
        (fun x hx => by
          cases hp : p x
          · rfl
          · rw [hp] at hx; simp at hx)]
      exact utils.filter_pySorted_const_key (fun x => !p x) k items
    · rw [sort_items_filter_pos items p _
        (fun x hx => ((Bool.and_eq_true _ _).mp hx).1)]
      exact utils.filter_pySorted_const_key p k items

/-- C6: the two-tier completion sort is idempotent — applying `sort_items`
to its own output with the same pure predicate yields the same sequence. -/
theorem C6_sort_items_idempotent {α : Type} [utils.HasTitle α] (items : List α)
    (p : α → Bool) :
    utils.sort_items (utils.sort_items items p) p = utils.sort_items items p := by
  have hS := List.sorted_insertionSort utils.titleLe items
  have hA : List.Sorted utils.titleLe
      ((utils.pySorted items).filter (fun x => !p x)) := hS.filter _
  have hB : List.Sorted utils.titleLe ((utils.pySorted items).filter p) :=
    hS.filter _
  rw [utils.sort_items_eq (utils.sort_items items p) p]
  show (utils.pySorted (utils.sort_items items p)).filter (fun x => !p x)
      ++ (utils.pySorted (utils.sort_items items p)).filter p
    = utils.sort_items items p
  rw [show utils.pySorted (utils.sort_items items p)
      = List.insertionSort utils.titleLe (utils.sort_items items p) from rfl,
    utils.filter_insertionSort, utils.filter_insertionSort,
    utils.sort_items_eq items p, List.filter_append, List.filter_append,
    filter_subpred (fun x => !p x) (fun x => !p x) _ (fun _ hx => hx),
    filter_disjoint_pred (fun x => !p x) p _
      (fun x hx => by simp at hx; exact hx),
    filter_disjoint_pred p (fun x => !p x) _
      (fun x hx => by simp [hx]),
    filter_subpred p p _ (fun _ hx => hx),
    List.append_nil, List.nil_append,
    List.Sorted.insertionSort_eq hA, List.Sorted.insertionSort_eq hB]

/-- C10: applying the shared utility `mark_all_todos_completed` twice
restores the list exactly — every completion flag returns to its original
value and nothing else changes — because the utility negates each flag
rather than setting it. -/
theorem C10_mark_all_involution (lst : TodoList) :
    utils.mark_all_todos_completed (utils.mark_all_todos_completed lst) = lst := by
  have h : ∀ ts : List Todo,
      (ts.map (fun todo => { todo with completed := !todo.completed })).map
        (fun todo => { todo with completed := !todo.completed }) = ts := by
    intro ts
    induction ts with
    | nil => rfl
    | cons t rest ih =>
      cases t
      simp [ih]
  cases lst with
  | mk i ti ts => simp [utils.mark_all_todos_completed, h]

end TodoApp
